import Mathlib

/-!
# Verification of the AC induction-motor digital-twin viewer

Shallow embedding of the procedural-geometry and animation core of the
predictive-maintenance dashboard.  The repository holds two near-identical
variants of the single-file application: `src/sew_predictive.jsx` (called the
"Jsx" variant below) and a second variant embedded in `src/README.md` after
the documentation text (called the "Readme" variant below).

Real-valued quantities of the source are modelled over an abstract field
`α` so that the definitions stay computable; the theorems instantiate `α := ℝ`
with `Real.sin`, `Real.cos` and `Real.pi` for the transcendental functions and
the constant `Math.PI` used by the JavaScript source.  Decimal literals of the
source are written as the exact fractions they denote (e.g. `0.5` as `1 / 2`).
-/

/-- A 3-component vector, as the flat `(x, y, z)` triples pushed into the
`verts` and `norms` arrays of `partialCylinder` (README lines 344-356). -/
structure Vec3 (α : Type) where
  x : α
  y : α
  z : α

/-- The angular sample of `partialCylinder` at step `i` (README lines 347-348):
`t = i / radSegs; a = arcStart + (arcEnd - arcStart) * t`. -/
def sampleAngle {α : Type} [DivisionRing α] (arcStart arcEnd : α) (radSegs i : ℕ) : α :=
  arcStart + (arcEnd - arcStart) * ((i : α) / (radSegs : α))

/-- The two vertices pushed per angular sample of `partialCylinder`
(README lines 349-355): bottom ring at `z = -height*0.5`, then top ring at
`z = height*0.5`, both at radius `radius` with `x = sin a`, `y = cos a`. -/
def pcVertexPair {α : Type} [DivisionRing α] (sinF cosF : α → α)
    (radius height arcStart arcEnd : α) (radSegs i : ℕ) : List (Vec3 α) :=
  let a := sampleAngle arcStart arcEnd radSegs i
  let cx := sinF a
  let cy := cosF a
  let halfH := height / 2
  [⟨cx * radius, cy * radius, -halfH⟩, ⟨cx * radius, cy * radius, halfH⟩]

/-- The two normals pushed per angular sample of `partialCylinder`
(README lines 352 and 355): `(cx, cy, 0)` for both the bottom and the top
ring vertex, where `cx = sin a`, `cy = cos a`. -/
def pcNormalPair {α : Type} [DivisionRing α] (sinF cosF : α → α)
    (arcStart arcEnd : α) (radSegs i : ℕ) : List (Vec3 α) :=
  let a := sampleAngle arcStart arcEnd radSegs i
  [⟨sinF a, cosF a, 0⟩, ⟨sinF a, cosF a, 0⟩]

/-- The full vertex list of `partialCylinder` (README lines 346-356): the loop
`for (let i = 0; i <= radSegs; i++)` pushes `pcVertexPair` for each sample. -/
def partialCylinderVerts {α : Type} [DivisionRing α] (sinF cosF : α → α)
    (radius height arcStart arcEnd : α) (radSegs : ℕ) : List (Vec3 α) :=
  (List.range (radSegs + 1)).flatMap
    (pcVertexPair sinF cosF radius height arcStart arcEnd radSegs)

/-- The full normal list of `partialCylinder` (README lines 346-356). -/
def partialCylinderNorms {α : Type} [DivisionRing α] (sinF cosF : α → α)
    (arcStart arcEnd : α) (radSegs : ℕ) : List (Vec3 α) :=
  (List.range (radSegs + 1)).flatMap (pcNormalPair sinF cosF arcStart arcEnd radSegs)

/-- The triangle (index-triple) list of `partialCylinder` (README lines
357-361): for each quad strip `i`, with `a = 2i, b = a+1, c = a+2, d = c+1`,
the two triangles `(a, c, b)` and `(b, c, d)` are emitted. -/
def partialCylinderTris (radSegs : ℕ) : List (ℕ × ℕ × ℕ) :=
  (List.range radSegs).flatMap
    (fun i => [(2 * i, 2 * i + 2, 2 * i + 1), (2 * i + 1, 2 * i + 2, 2 * i + 3)])

/-- The constant `CUT_START = -50 * Math.PI / 180` (README line 370), as a function of π. -/
def CUT_START {α : Type} [Field α] (pi : α) : α := -50 * pi / 180

/-- The constant `CUT_END = 140 * Math.PI / 180` (README line 371). -/
def CUT_END {α : Type} [Field α] (pi : α) : α := 140 * pi / 180

/-- The assignment `SOLID_START = CUT_END` (README line 373), for a general cut end angle. -/
def SOLID_START {α : Type} (cutEnd : α) : α := cutEnd

/-- The assignment `SOLID_END = CUT_START + Math.PI * 2` (README line 374), for a
general cut start angle. -/
def SOLID_END {α : Type} [Field α] (pi cutStart : α) : α := cutStart + pi * 2

/-- The span of the generated solid arc: `SOLID_END - SOLID_START`. -/
def solidSpan {α : Type} [Field α] (pi cutStart cutEnd : α) : α :=
  SOLID_END pi cutStart - SOLID_START cutEnd

/-- The rotor driver of the Jsx variant (sew_predictive.jsx line 383):
`rotorG.rotation.z = timeRef.current * ((1740 / 60) * Math.PI * 2)`.
The Readme variant computes the same value via `angV` (README lines 721-722). -/
def rotorAngle {α : Type} [Field α] (pi time : α) : α :=
  time * ((1740 / 60) * pi * 2)

/-- The constant `angV = (1740/60)*Math.PI*2` of the Readme variant (README line 721). -/
def angV {α : Type} [Field α] (pi : α) : α := (1740 / 60) * pi * 2

/-- Rotor z-rotation of the Readme variant (README line 722):
`rotorG.rotation.z = timeRef.current * angV`. -/
def rotorAngleReadme {α : Type} [Field α] (pi time : α) : α := time * angV pi

/-- Fan-group local z-rotation of the Readme variant (README line 723):
`fanG.rotation.z = timeRef.current * angV`. -/
def fanLocalReadme {α : Type} [Field α] (pi time : α) : α := time * angV pi

/-- Fan-group local z-rotation of the Jsx variant: the animate loop of
sew_predictive.jsx never writes `fanG.rotation`, so it stays at its initial
value `0`. -/
def fanLocalJsx {α : Type} [Field α] (_pi _time : α) : α := 0

/-- World-space angular position of the fan about the spin axis in the Readme
variant.  `fanG` is a child of `rotorG` (README line 584: `rotorG.add(fanG)`),
and both rotations are pure z-rotations, so they compose additively. -/
def fanWorldReadme {α : Type} [Field α] (pi time : α) : α :=
  rotorAngleReadme pi time + fanLocalReadme pi time

/-- World-space angular position of the fan in the Jsx variant.  `fanG` is a
child of `rotorG` (sew_predictive.jsx line 295: `rotorG.add(fanG)`). -/
def fanWorldJsx {α : Type} [Field α] (pi time : α) : α :=
  rotorAngle pi time + fanLocalJsx pi time

/-- The card-click selection update (sew_predictive.jsx line 634, README line
942): `setSelectedComp(selectedComp === c.id ? null : c.id)`. -/
def clickSelect (selectedComp : Option String) (id : String) : Option String :=
  if selectedComp = some id then none else some id

/-- Emissive intensity written by the coil pulse of the Jsx variant
(sew_predictive.jsx line 401): `0.2 + Math.sin(timeRef.current * 25 + ph) * 0.25`,
with `ph = (c.position.y + c.position.z) * 25` the per-mesh phase.
Decimal literals written as fractions: `0.2 = 1/5`, `0.25 = 1/4`. -/
def coilIntensityJsx {α : Type} [Field α] (sinF : α → α) (t ph : α) : α :=
  1 / 5 + sinF (t * 25 + ph) * (1 / 4)

/-- Per-mesh phase of the Jsx coil pulse (sew_predictive.jsx line 400):
`ph = (c.position.y + c.position.z) * 25`. -/
def coilPhaseJsx {α : Type} [Field α] (posY posZ : α) : α := (posY + posZ) * 25

/-- Emissive intensity written by the coil pulse of the Readme variant
(README line 740): `0.14 + Math.sin(timeRef.current * 18 + a * 3) * 0.22`,
with `a = atan2(x, y)` the mesh's angular position around the bore.
Decimal literals written as fractions: `0.14 = 7/50`, `0.22 = 11/50`. -/
def coilIntensityReadme {α : Type} [Field α] (sinF : α → α) (t a : α) : α :=
  7 / 50 + sinF (t * 18 + a * 3) * (11 / 50)

/-- The per-mesh state the highlight pass reads and writes: the `compId` tag
(`c.userData.compId`), the `isLabel` tag (`c.userData.isLabel`, only ever set
on the Readme variant's sprite labels, absent hence false on every motor
mesh), and the current material pointer (`c.material`).  The traversal order
of `motor.traverse` is fixed, so meshes are identified by their traversal
index. -/
structure MeshState (M : Type) where
  compId : String
  isLabel : Bool
  material : M
deriving DecidableEq

/-- The highlight condition `hid && c.userData.compId === hid` of the animate
loops (sew_predictive.jsx line 389, README line 732): `hid` must be truthy
(non-null and, per JavaScript, not the empty string) and equal to the mesh's
`compId`. -/
def selMatches (hid : Option String) (cid : String) : Bool :=
  match hid with
  | none => false
  | some h => !(h == "") && (cid == h)

/-- One step of the Jsx highlight pass (sew_predictive.jsx lines 388-394):
if the selection matches, assign the shared highlight material; otherwise
`c.material = origMats.get(c) || c.material` (restore the recorded original,
falling back to the current material when the map has no entry). -/
def highlightStepJsx {M : Type} (hl : M) (orig : Option M) (hid : Option String)
    (m : MeshState M) : MeshState M :=
  if selMatches hid m.compId then { m with material := hl }
  else { m with material := orig.getD m.material }

/-- One step of the Readme highlight pass (README lines 730-734): identical to
the Jsx step except that meshes tagged `isLabel` are skipped
(`if (c.isMesh && !c.userData.isLabel)`). -/
def highlightStepReadme {M : Type} (hl : M) (orig : Option M) (hid : Option String)
    (m : MeshState M) : MeshState M :=
  if m.isLabel then m
  else if selMatches hid m.compId then { m with material := hl }
  else { m with material := orig.getD m.material }

/-- The Jsx highlight pass over the meshes of the motor group in traversal
order, starting at traversal index `k` (sew_predictive.jsx lines 387-395).
`om` is the original-material map keyed by traversal index. -/
def highlightPassJsx {M : Type} (hl : M) (om : ℕ → Option M) (hid : Option String) :
    ℕ → List (MeshState M) → List (MeshState M)
  | _, [] => []
  | k, m :: ms => highlightStepJsx hl (om k) hid m :: highlightPassJsx hl om hid (k + 1) ms

/-- The Readme highlight pass (README lines 730-734). -/
def highlightPassReadme {M : Type} (hl : M) (om : ℕ → Option M) (hid : Option String) :
    ℕ → List (MeshState M) → List (MeshState M)
  | _, [] => []
  | k, m :: ms => highlightStepReadme hl (om k) hid m :: highlightPassReadme hl om hid (k + 1) ms

/-- The original-material map populated once at scene-build time
(sew_predictive.jsx lines 347-348, README lines 679-680):
`motor.traverse((c) => { if (c.isMesh) origMats.set(c, c.material); })`.
Keyed by traversal index: entry `i` records the build-time material of the
`i`-th mesh of the motor group. -/
def origMatsOf {M : Type} (ms0 : List (MeshState M)) : ℕ → Option M :=
  fun i => (ms0[i]?).map (fun m => m.material)

/-- The build-time materials of the Jsx variant's motor meshes
(sew_predictive.jsx lines 179-191 plus the inline keyway material of
line 286). -/
inductive JsMat : Type
  | housing
  | endcap
  | rotorMat
  | shaftMat
  | coilMat
  | barMat
  | ringMat
  | fanBlkMat
  | guardMat
  | boxMat
  | footMat
  | keyMat
  | highlightMat
deriving DecidableEq

/-- Helper: a motor mesh at build time — `compId` tag, no label flag, and the
build material. -/
def mkMesh (cid : String) (m : JsMat) : MeshState JsMat := ⟨cid, false, m⟩

/-- Every mesh of the Jsx variant's motor group in `motor.traverse` order
(sew_predictive.jsx lines 193-339): the stator subtree — housing barrel,
28 fins, 2 end caps, 36 stator coils, 2 bearings, 2 guard rings, guard side,
junction box + lid, foot — followed by the rotor subtree — rotor cylinder,
32 bars, 2 end rings, shaft, keyway, and the fan group's hub and 6 blades.
The grid helper and lights live on `scene`, outside `motor`, and no object is
added to `motor` after build. -/
def motorMeshesJsx : List (MeshState JsMat) :=
  [mkMesh "housing" JsMat.housing]
    ++ List.replicate 28 (mkMesh "housing" JsMat.housing)
    ++ [mkMesh "bearing_drive" JsMat.endcap, mkMesh "bearing_fan" JsMat.endcap]
    ++ List.replicate 36 (mkMesh "stator_winding" JsMat.coilMat)
    ++ [mkMesh "bearing_drive" JsMat.barMat, mkMesh "bearing_fan" JsMat.barMat]
    ++ List.replicate 2 (mkMesh "fan_guard" JsMat.guardMat)
    ++ [mkMesh "fan_guard" JsMat.guardMat]
    ++ [mkMesh "junction_box" JsMat.boxMat, mkMesh "junction_box" JsMat.boxMat]
    ++ [mkMesh "housing" JsMat.footMat]
    ++ [mkMesh "rotor_bars" JsMat.rotorMat]
    ++ List.replicate 32 (mkMesh "rotor_bars" JsMat.barMat)
    ++ List.replicate 2 (mkMesh "rotor_bars" JsMat.ringMat)
    ++ [mkMesh "shaft" JsMat.shaftMat, mkMesh "shaft" JsMat.keyMat]
    ++ [mkMesh "fan_guard" JsMat.fanBlkMat]
    ++ List.replicate 6 (mkMesh "fan_guard" JsMat.fanBlkMat)

/-- Camera orbit state in spherical coordinates, as held by the
`THREE.Spherical` object `sph` (sew_predictive.jsx line 353, README
line 692). -/
structure OrbitSph (α : Type) where
  radius : α
  theta : α
  phi : α

/-- A pointer interaction event consumed by the orbit controller: a drag
movement with pixel deltas, or a wheel event with a scroll delta. -/
inductive OrbitEvent (α : Type) : Type
  | move (dx dy : α)
  | wheel (deltaY : α)

/-- The `onMove` drag handler while dragging (sew_predictive.jsx lines
356-364, README lines 695-703): `sph.theta -= dx*0.005; sph.phi -= dy*0.005;
sph.phi = Math.max(0.15, Math.min(Math.PI-0.15, sph.phi))`.
Decimal literals as fractions: `0.005 = 1/200`, `0.15 = 3/20`. -/
def moveStep {α : Type} [LinearOrderedField α] (pi dx dy : α) (s : OrbitSph α) : OrbitSph α :=
  { radius := s.radius
    theta := s.theta - dx * (1 / 200)
    phi := max (3 / 20) (min (pi - 3 / 20) (s.phi - dy * (1 / 200))) }

/-- The `onWheel` handler (sew_predictive.jsx line 367:
`sph.radius = Math.max(0.2, Math.min(1.0, sph.radius + e.deltaY * 0.0004))`;
README line 706 with bounds `0.22` and `0.9`).  `rMin`/`rMax` are the clamp
bounds of the respective variant; `0.0004 = 1/2500`. -/
def wheelStep {α : Type} [LinearOrderedField α] (rMin rMax dY : α) (s : OrbitSph α) : OrbitSph α :=
  { radius := max rMin (min rMax (s.radius + dY * (1 / 2500)))
    theta := s.theta
    phi := s.phi }

/-- One orbit-controller event. -/
def orbitStep {α : Type} [LinearOrderedField α] (pi rMin rMax : α) :
    OrbitEvent α → OrbitSph α → OrbitSph α
  | OrbitEvent.move dx dy, s => moveStep pi dx dy s
  | OrbitEvent.wheel dY, s => wheelStep rMin rMax dY s

/-- A finite sequence of orbit-controller events applied in order. -/
def orbitRun {α : Type} [LinearOrderedField α] (pi rMin rMax : α)
    (events : List (OrbitEvent α)) (s : OrbitSph α) : OrbitSph α :=
  events.foldl (fun st e => orbitStep pi rMin rMax e st) s

/-- C2: advancing the accumulated time from `t` to `t + dt` increases the
rotor group's z-rotation by exactly `dt * (1740/60) * 2π`, because the driver
sets the angle to `time * ((1740/60) * π * 2)`; in particular at accumulated
time `1.0` the angle equals `29 * 2π` (`1740/60 = 29`). -/
theorem rotor_rotation_consistency :
    (∀ t dt : ℝ, rotorAngle Real.pi (t + dt) - rotorAngle Real.pi t =
      dt * (1740 / 60) * (2 * Real.pi)) ∧
    rotorAngle Real.pi 1 = 29 * (2 * Real.pi) := by
  constructor
  · intro t dt
    unfold rotorAngle
    ring
  · unfold rotorAngle
    ring

/-- C5 counterexample: the claim asserts, for every `cutStart < cutEnd`, that
the solid arc `[SOLID_START, SOLID_END] = [cutEnd, cutStart + 2π]` has
positive span and `SOLID_START < SOLID_END`.  At `cutStart = 0`,
`cutEnd = 7` (a "cut" wider than a full turn) the hypotheses hold but the
span `2π − 7` is negative and the solid end lies below the solid start. -/
theorem solid_arc_span_cex :
    (0 : ℝ) < 7 ∧
    solidSpan Real.pi (0 : ℝ) 7 = 2 * Real.pi - (7 - 0) ∧
    ¬ (0 < solidSpan Real.pi (0 : ℝ) 7) ∧
    ¬ (SOLID_START (7 : ℝ) < SOLID_END Real.pi 0) := by
  have hpi : Real.pi < 3.15 := Real.pi_lt_d2
  refine ⟨by norm_num, ?_, ?_, ?_⟩
  · unfold solidSpan SOLID_END SOLID_START
    ring
  · unfold solidSpan SOLID_END SOLID_START
    intro h
    nlinarith
  · unfold SOLID_END SOLID_START
    intro h
    nlinarith

/-- C5 (amended): for every cut arc with `cutStart < cutEnd` and width less
than a full turn (`cutEnd − cutStart < 2π`), the solid arc computed as the
complement spans exactly `2π − (cutEnd − cutStart)`, the span is positive and
the solid end exceeds the solid start, independent of where the cut sits; the
code's fixed cut (`CUT_START = −50°`, `CUT_END = 140°`) satisfies these
hypotheses. -/
theorem solid_arc_span (cutStart cutEnd : ℝ) (h1 : cutStart < cutEnd)
    (h2 : cutEnd - cutStart < 2 * Real.pi) :
    solidSpan Real.pi cutStart cutEnd = 2 * Real.pi - (cutEnd - cutStart) ∧
    0 < solidSpan Real.pi cutStart cutEnd ∧
    SOLID_START cutEnd < SOLID_END Real.pi cutStart ∧
    CUT_START Real.pi < CUT_END Real.pi ∧
    CUT_END Real.pi - CUT_START Real.pi < 2 * Real.pi := by
  have hpi : 3 < Real.pi := Real.pi_gt_three
  refine ⟨?_, ?_, ?_, ?_, ?_⟩
  · unfold solidSpan SOLID_END SOLID_START
    ring
  · unfold solidSpan SOLID_END SOLID_START
    nlinarith
  · unfold SOLID_END SOLID_START
    nlinarith
  · unfold CUT_START CUT_END
    nlinarith
  · unfold CUT_START CUT_END
    nlinarith

/-- Witness for `solid_arc_span` at the concrete cut `[0, 1]`. -/
theorem solid_arc_span_witness :
    ((0 : ℝ) < 1 ∧ (1 : ℝ) - 0 < 2 * Real.pi) ∧
    (solidSpan Real.pi (0 : ℝ) 1 = 2 * Real.pi - (1 - 0) ∧
      0 < solidSpan Real.pi (0 : ℝ) 1 ∧
      SOLID_START (1 : ℝ) < SOLID_END Real.pi 0 ∧
      CUT_START Real.pi < CUT_END Real.pi ∧
      CUT_END Real.pi - CUT_START Real.pi < 2 * Real.pi) := by
  have hpi : 3 < Real.pi := Real.pi_gt_three
  have h1 : (0 : ℝ) < 1 := by norm_num
  have h2 : (1 : ℝ) - 0 < 2 * Real.pi := by nlinarith
  exact ⟨⟨h1, h2⟩, solid_arc_span 0 1 h1 h2⟩

/-- C6: starting from any selection that is not `X`, clicking `X` then `X`
again clears the selection, and clicking `X` then `Y` (with `Y ≠ X`) selects
`Y`. -/
theorem selection_toggle (s : Option String) (X Y : String)
    (hxy : X ≠ Y) (hs : s ≠ some X) :
    clickSelect (clickSelect s X) X = none ∧
    clickSelect (clickSelect s X) Y = some Y := by
  have h1 : clickSelect s X = some X := by
    unfold clickSelect
    simp [hs]
  constructor
  · rw [h1]
    unfold clickSelect
    simp
  · rw [h1]
    unfold clickSelect
    simp
    intro h
    exact absurd h hxy

/-- Witness for `selection_toggle` with the concrete component ids
`bearing_drive` and `shaft`, starting from the empty selection. -/
theorem selection_toggle_witness :
    ("bearing_drive" ≠ "shaft" ∧ (none : Option String) ≠ some "bearing_drive") ∧
    (clickSelect (clickSelect none "bearing_drive") "bearing_drive" = none ∧
      clickSelect (clickSelect none "bearing_drive") "shaft" = some "shaft") :=
  ⟨⟨by decide, by decide⟩,
    selection_toggle none "bearing_drive" "shaft" (by decide) (by decide)⟩

/-- C4 evaluation (code bug): in the Jsx variant the fan's world z-angle does
equal the rotor's, but in the Readme variant `fanG` is a child of `rotorG`
(README line 584) and the animate loop additionally sets
`fanG.rotation.z = timeRef.current * angV` (README line 723), so the fan's
world z-angle is twice the rotor's.  At accumulated time `t = 1/2` the excess
is `29π`, which is not a multiple of `2π`: the fan does not rotate identically
to the rotor, contradicting the code's own comment (`// fan spins with rotor`)
and the README animation table (`Rotor + fan | Spin at 1 740 RPM`). -/
theorem fan_rotation_divergence :
    (∀ t : ℝ, fanWorldJsx Real.pi t = rotorAngle Real.pi t) ∧
    fanWorldReadme Real.pi (1 / 2) - rotorAngleReadme Real.pi (1 / 2) = 29 * Real.pi ∧
    ¬ ∃ k : ℤ, fanWorldReadme Real.pi (1 / 2) - rotorAngleReadme Real.pi (1 / 2) =
      k * (2 * Real.pi) := by
  refine ⟨?_, ?_, ?_⟩
  · intro t
    unfold fanWorldJsx fanLocalJsx
    ring
  · unfold fanWorldReadme rotorAngleReadme fanLocalReadme angV
    ring
  · rintro ⟨k, hk⟩
    have hv : fanWorldReadme Real.pi (1 / 2) - rotorAngleReadme Real.pi (1 / 2) =
        29 * Real.pi := by
      unfold fanWorldReadme rotorAngleReadme fanLocalReadme angV
      ring
    rw [hv] at hk
    have h2 : (29 : ℝ) * Real.pi = (2 * (k : ℝ)) * Real.pi := by
      rw [hk]
      ring
    have h3 : (29 : ℝ) = 2 * (k : ℝ) := mul_right_cancel₀ Real.pi_ne_zero h2
    have h4 : (29 : ℤ) = 2 * k := by exact_mod_cast h3
    omega

/-- C10: the emissive intensity written by the coil-pulse step lies in
`[0.2 − 0.25, 0.2 + 0.25] = [−0.05, 0.45]` in the Jsx variant and in
`[0.14 − 0.22, 0.14 + 0.22] = [−0.08, 0.36]` in the Readme variant, and for
every mesh phase there is a time at which the written intensity is strictly
negative: the sinusoid is never clamped below at zero. -/
theorem coil_pulse_range :
    (∀ t ph : ℝ, -0.05 ≤ coilIntensityJsx Real.sin t ph ∧
      coilIntensityJsx Real.sin t ph ≤ 0.45) ∧
    (∀ t a : ℝ, -0.08 ≤ coilIntensityReadme Real.sin t a ∧
      coilIntensityReadme Real.sin t a ≤ 0.36) ∧
    (∀ ph : ℝ, ∃ t : ℝ, coilIntensityJsx Real.sin t ph < 0) ∧
    (∀ a : ℝ, ∃ t : ℝ, coilIntensityReadme Real.sin t a < 0) := by
  refine ⟨?_, ?_, ?_, ?_⟩
  · intro t ph
    have h1 := Real.neg_one_le_sin (t * 25 + ph)
    have h2 := Real.sin_le_one (t * 25 + ph)
    unfold coilIntensityJsx
    constructor <;> nlinarith
  · intro t a
    have h1 := Real.neg_one_le_sin (t * 18 + a * 3)
    have h2 := Real.sin_le_one (t * 18 + a * 3)
    unfold coilIntensityReadme
    constructor <;> nlinarith
  · intro ph
    refine ⟨(-(Real.pi / 2) - ph) / 25, ?_⟩
    have harg : ((-(Real.pi / 2) - ph) / 25) * 25 + ph = -(Real.pi / 2) := by ring
    unfold coilIntensityJsx
    rw [harg, Real.sin_neg, Real.sin_pi_div_two]
    norm_num
  · intro a
    refine ⟨(-(Real.pi / 2) - a * 3) / 18, ?_⟩
    have harg : ((-(Real.pi / 2) - a * 3) / 18) * 18 + a * 3 = -(Real.pi / 2) := by ring
    unfold coilIntensityReadme
    rw [harg, Real.sin_neg, Real.sin_pi_div_two]
    norm_num

/-- Indexing the Jsx highlight pass: the mesh at traversal index `i` of the
result is the step applied to the input mesh at index `i`, with the
original-material map consulted at the mesh's absolute traversal index. -/
theorem highlightPassJsx_getElem {M : Type} (hl : M) (om : ℕ → Option M)
    (hid : Option String) :
    ∀ (ms : List (MeshState M)) (k i : ℕ),
      (highlightPassJsx hl om hid k ms)[i]? =
        (ms[i]?).map (highlightStepJsx hl (om (k + i)) hid) := by
  intro ms
  induction ms with
  | nil =>
    intro k i
    simp [highlightPassJsx]
  | cons m ms ih =>
    intro k i
    cases i with
    | zero => simp [highlightPassJsx]
    | succ n =>
      simp only [highlightPassJsx, List.getElem?_cons_succ]
      rw [ih (k + 1) n]
      have hadd : k + 1 + n = k + (n + 1) := by omega
      rw [hadd]

/-- Indexing the Readme highlight pass. -/
theorem highlightPassReadme_getElem {M : Type} (hl : M) (om : ℕ → Option M)
    (hid : Option String) :
    ∀ (ms : List (MeshState M)) (k i : ℕ),
      (highlightPassReadme hl om hid k ms)[i]? =
        (ms[i]?).map (highlightStepReadme hl (om (k + i)) hid) := by
  intro ms
  induction ms with
  | nil =>
    intro k i
    simp [highlightPassReadme]
  | cons m ms ih =>
    intro k i
    cases i with
    | zero => simp [highlightPassReadme]
    | succ n =>
      simp only [highlightPassReadme, List.getElem?_cons_succ]
      rw [ih (k + 1) n]
      have hadd : k + 1 + n = k + (n + 1) := by omega
      rw [hadd]

/-- The highlight condition holds exactly when the selection equals the mesh's
`compId`, provided the selection is never the (JavaScript-falsy) empty
string. -/
theorem selMatches_iff (hid : Option String) (cid : String) (hhid : hid ≠ some "") :
    selMatches hid cid = true ↔ hid = some cid := by
  cases hid with
  | none => simp [selMatches]
  | some h =>
    have hne : h ≠ "" := by
      intro he
      exact hhid (by rw [he])
    simp [selMatches, hne]
    constructor
    · intro he
      exact he.symm
    · intro he
      exact he.symm

/-- C3: after one execution of the highlight pass with selection `hid`, the
mesh at traversal index `i` carries the shared highlight material when the
selection is non-null and equals its `compId` tag, and otherwise carries the
original material recorded for it at scene-build time — in both variants.
(`ms0` is the motor's mesh list at build time, from which `origMats` was
populated; `ms` is the mesh list at the current frame, whose materials may
have been rewritten by earlier frames.) -/
theorem highlight_pass_materials {M : Type} (hl : M) (hid : Option String)
    (ms0 ms : List (MeshState M)) (i : ℕ) (m0 m : MeshState M)
    (h0 : ms0[i]? = some m0) (h : ms[i]? = some m)
    (hhid : hid ≠ some "") (hlab : m.isLabel = false) :
    (highlightPassJsx hl (origMatsOf ms0) hid 0 ms)[i]? =
      some (if hid = some m.compId then { m with material := hl }
        else { m with material := m0.material }) ∧
    (highlightPassReadme hl (origMatsOf ms0) hid 0 ms)[i]? =
      some (if hid = some m.compId then { m with material := hl }
        else { m with material := m0.material }) := by
  have hom : origMatsOf ms0 (0 + i) = some m0.material := by
    simp [origMatsOf, h0]
  constructor
  · rw [highlightPassJsx_getElem hl (origMatsOf ms0) hid ms 0 i, h, Option.map_some']
    unfold highlightStepJsx
    rw [hom]
    by_cases hc : hid = some m.compId
    · rw [if_pos ((selMatches_iff hid m.compId hhid).mpr hc), if_pos hc]
    · rw [if_neg (fun hb => hc ((selMatches_iff hid m.compId hhid).mp hb)), if_neg hc]
      simp
  · rw [highlightPassReadme_getElem hl (origMatsOf ms0) hid ms 0 i, h, Option.map_some']
    unfold highlightStepReadme
    rw [hom, hlab]
    simp only [Bool.false_eq_true, if_false]
    by_cases hc : hid = some m.compId
    · rw [if_pos ((selMatches_iff hid m.compId hhid).mpr hc), if_pos hc]
    · rw [if_neg (fun hb => hc ((selMatches_iff hid m.compId hhid).mp hb)), if_neg hc]
      simp

/-- Witness for `highlight_pass_materials`: a one-mesh motor whose build
material is `1`, whose current material is `5`, highlighted with material `99`
under the matching selection. -/
theorem highlight_pass_materials_witness :
    (([⟨"housing", false, (1 : ℕ)⟩] : List (MeshState ℕ))[0]? = some ⟨"housing", false, 1⟩ ∧
      (([⟨"housing", false, (5 : ℕ)⟩] : List (MeshState ℕ))[0]? = some ⟨"housing", false, 5⟩) ∧
      (some "housing" ≠ some "") ∧
      (⟨"housing", false, (5 : ℕ)⟩ : MeshState ℕ).isLabel = false) ∧
    ((highlightPassJsx 99 (origMatsOf [⟨"housing", false, 1⟩]) (some "housing") 0
        [⟨"housing", false, 5⟩])[0]? =
      some (if some "housing" = some (⟨"housing", false, (5 : ℕ)⟩ : MeshState ℕ).compId
        then { (⟨"housing", false, 5⟩ : MeshState ℕ) with material := 99 }
        else { (⟨"housing", false, 5⟩ : MeshState ℕ) with material := 1 }) ∧
      (highlightPassReadme 99 (origMatsOf [⟨"housing", false, 1⟩]) (some "housing") 0
        [⟨"housing", false, 5⟩])[0]? =
      some (if some "housing" = some (⟨"housing", false, (5 : ℕ)⟩ : MeshState ℕ).compId
        then { (⟨"housing", false, 5⟩ : MeshState ℕ) with material := 99 }
        else { (⟨"housing", false, 5⟩ : MeshState ℕ) with material := 1 })) :=
  ⟨⟨rfl, rfl, by decide, rfl⟩,
    highlight_pass_materials 99 (some "housing") [⟨"housing", false, 1⟩]
      [⟨"housing", false, 5⟩] 0 ⟨"housing", false, 1⟩ ⟨"housing", false, 5⟩
      rfl rfl (by decide) rfl⟩

/-- One Jsx highlight step is idempotent. -/
theorem highlightStepJsx_idem {M : Type} (hl : M) (o : Option M)
    (hid : Option String) (m : MeshState M) :
    highlightStepJsx hl o hid (highlightStepJsx hl o hid m) =
      highlightStepJsx hl o hid m := by
  unfold highlightStepJsx
  by_cases hc : selMatches hid m.compId = true
  · simp [hc]
  · cases o with
    | none => simp [hc]
    | some x => simp [hc]

/-- One Readme highlight step is idempotent. -/
theorem highlightStepReadme_idem {M : Type} (hl : M) (o : Option M)
    (hid : Option String) (m : MeshState M) :
    highlightStepReadme hl o hid (highlightStepReadme hl o hid m) =
      highlightStepReadme hl o hid m := by
  unfold highlightStepReadme
  by_cases hlab : m.isLabel = true
  · simp [hlab]
  · by_cases hc : selMatches hid m.compId = true
    · simp [hlab, hc]
    · cases o with
      | none => simp [hlab, hc]
      | some x => simp [hlab, hc]

/-- C8: the per-frame highlight pass is idempotent — for every selection,
every original-material map and every starting material assignment, running
the pass twice yields the same mesh states as running it once, in both
variants. -/
theorem highlight_pass_idempotent {M : Type} (hl : M) (om : ℕ → Option M)
    (hid : Option String) :
    ∀ (ms : List (MeshState M)) (k : ℕ),
      highlightPassJsx hl om hid k (highlightPassJsx hl om hid k ms) =
        highlightPassJsx hl om hid k ms ∧
      highlightPassReadme hl om hid k (highlightPassReadme hl om hid k ms) =
        highlightPassReadme hl om hid k ms := by
  intro ms
  induction ms with
  | nil =>
    intro k
    exact ⟨rfl, rfl⟩
  | cons m ms ih =>
    intro k
    constructor
    · simp only [highlightPassJsx]
      rw [highlightStepJsx_idem, (ih (k + 1)).1]
    · simp only [highlightPassReadme]
      rw [highlightStepReadme_idem, (ih (k + 1)).2]

/-- C9: the original-material map populated at scene-build time is total over
the Jsx motor's meshes — every traversal index of the motor group has a
recorded entry, namely that mesh's build material — so the fallback
`origMats.get(c) || c.material` never resolves to the fallback: `getD`
returns the recorded original material whatever the current material is. -/
theorem origMats_total (i : ℕ) (hi : i < motorMeshesJsx.length) :
    origMatsOf motorMeshesJsx i = some ((motorMeshesJsx.get ⟨i, hi⟩).material) ∧
    ∀ fb : JsMat,
      (origMatsOf motorMeshesJsx i).getD fb = (motorMeshesJsx.get ⟨i, hi⟩).material := by
  have h : motorMeshesJsx[i]? = some (motorMeshesJsx.get ⟨i, hi⟩) := by
    rw [List.getElem?_eq_getElem hi]
    simp
  constructor
  · simp [origMatsOf, h]
  · intro fb
    simp [origMatsOf, h]

/-- Witness for `origMats_total` at traversal index 0 (the housing barrel). -/
theorem origMats_total_witness :
    0 < motorMeshesJsx.length ∧
    (origMatsOf motorMeshesJsx 0 = some JsMat.housing ∧
      ∀ fb : JsMat, (origMatsOf motorMeshesJsx 0).getD fb = JsMat.housing) := by
  have hi : 0 < motorMeshesJsx.length := by decide
  have hmat : (motorMeshesJsx.get ⟨0, hi⟩).material = JsMat.housing := rfl
  have h := origMats_total 0 hi
  rw [hmat] at h
  exact ⟨hi, h⟩

/-- A list flat-mapped through blocks of two elements has twice as many
elements as the index list. -/
theorem flatMap_length_pairs {β γ : Type} (l : List β) (f : β → List γ)
    (h : ∀ a ∈ l, (f a).length = 2) : (l.flatMap f).length = 2 * l.length := by
  induction l with
  | nil => simp
  | cons a l ih =>
    simp only [List.flatMap_cons, List.length_append, List.length_cons]
    rw [h a (by simp), ih (fun b hb => h b (by simp [hb]))]
    ring

/-- Indexing into a list flat-mapped through blocks of two elements: position
`j` lands in block `j / 2` at offset `j % 2`. -/
theorem flatMap_pair_getElem {β γ : Type} :
    ∀ (l : List β) (f : β → List γ), (∀ a ∈ l, (f a).length = 2) →
      ∀ j, j < 2 * l.length →
        (l.flatMap f)[j]? = (l[j / 2]?).bind (fun a => (f a)[j % 2]?) := by
  intro l
  induction l with
  | nil =>
    intro f h j hj
    simp at hj
  | cons a l ih =>
    intro f h j hj
    simp only [List.flatMap_cons]
    by_cases hj2 : j < 2
    · rw [List.getElem?_append_left (by rw [h a (by simp)]; exact hj2)]
      have hd : j / 2 = 0 := by omega
      have hm : j % 2 = j := by omega
      rw [hd, hm]
      simp
    · push_neg at hj2
      have hfa : (f a).length = 2 := h a (by simp)
      rw [List.getElem?_append_right (by rw [hfa]; exact hj2), hfa]
      have hlt : j - 2 < 2 * l.length := by
        simp only [List.length_cons] at hj
        omega
      rw [ih f (fun b hb => h b (by simp [hb])) (j - 2) hlt]
      have hd : j / 2 = (j - 2) / 2 + 1 := by omega
      have hm : j % 2 = (j - 2) % 2 := by omega
      rw [hd, hm]
      simp

/-- C1: for every radius, height, arc range `a0 < a1` and segment count
`segs ≥ 1`, the partial-cylinder builder produces exactly `2*(segs+1)`
vertices and `2*segs` triangles, and the normal generated at each position
`j` equals the radial vector `(sin a, cos a, 0)` at the sample angle
`a = sampleAngle (j/2)` of the vertex generated at the same position `j`
(whose coordinates are pinned by the same conjunct: even `j` is the bottom
ring, odd `j` the top ring) — a unit vector. -/
theorem partialCylinder_spec (radius height a0 a1 : ℝ) (segs : ℕ)
    (harc : a0 < a1) (hseg : 1 ≤ segs) :
    (partialCylinderVerts Real.sin Real.cos radius height a0 a1 segs).length =
      2 * (segs + 1) ∧
    (partialCylinderTris segs).length = 2 * segs ∧
    ∀ j, j < (partialCylinderVerts Real.sin Real.cos radius height a0 a1 segs).length →
      (partialCylinderVerts Real.sin Real.cos radius height a0 a1 segs)[j]? =
        some ⟨Real.sin (sampleAngle a0 a1 segs (j / 2)) * radius,
          Real.cos (sampleAngle a0 a1 segs (j / 2)) * radius,
          if j % 2 = 0 then -(height / 2) else height / 2⟩ ∧
      (partialCylinderNorms Real.sin Real.cos a0 a1 segs)[j]? =
        some ⟨Real.sin (sampleAngle a0 a1 segs (j / 2)),
          Real.cos (sampleAngle a0 a1 segs (j / 2)), 0⟩ ∧
      Real.sin (sampleAngle a0 a1 segs (j / 2)) ^ 2 +
        Real.cos (sampleAngle a0 a1 segs (j / 2)) ^ 2 + (0 : ℝ) ^ 2 = 1 := by
  have hlv : (partialCylinderVerts Real.sin Real.cos radius height a0 a1 segs).length =
      2 * (segs + 1) := by
    unfold partialCylinderVerts
    rw [flatMap_length_pairs (List.range (segs + 1))
      (pcVertexPair Real.sin Real.cos radius height a0 a1 segs) (fun a _ => rfl)]
    simp
  refine ⟨hlv, ?_, ?_⟩
  · unfold partialCylinderTris
    rw [flatMap_length_pairs (List.range segs)
      (fun i => [(2 * i, 2 * i + 2, 2 * i + 1), (2 * i + 1, 2 * i + 2, 2 * i + 3)])
      (fun a _ => rfl)]
    simp
  · intro j hj
    rw [hlv] at hj
    have hj2 : j / 2 < segs + 1 := by omega
    have hv := flatMap_pair_getElem (List.range (segs + 1))
      (pcVertexPair Real.sin Real.cos radius height a0 a1 segs) (fun a _ => rfl) j
      (by simp only [List.length_range]; exact hj)
    have hn := flatMap_pair_getElem (List.range (segs + 1))
      (pcNormalPair Real.sin Real.cos a0 a1 segs) (fun a _ => rfl) j
      (by simp only [List.length_range]; exact hj)
    rw [List.getElem?_range hj2] at hv hn
    simp only [Option.some_bind] at hv hn
    refine ⟨?_, ?_, ?_⟩
    · unfold partialCylinderVerts
      rw [hv]
      rcases Nat.mod_two_eq_zero_or_one j with hm | hm
      · rw [hm]
        simp [pcVertexPair]
      · rw [hm]
        simp [pcVertexPair]
    · unfold partialCylinderNorms
      rw [hn]
      rcases Nat.mod_two_eq_zero_or_one j with hm | hm
      · rw [hm]
        simp [pcNormalPair]
      · rw [hm]
        simp [pcNormalPair]
    · have hsc := Real.sin_sq_add_cos_sq (sampleAngle a0 a1 segs (j / 2))
      nlinarith [hsc]

/-- Witness for `partialCylinder_spec` at radius 1, height 2, arc `[0, 1]`,
one segment. -/
theorem partialCylinder_spec_witness :
    ((0 : ℝ) < 1 ∧ 1 ≤ 1) ∧
    ((partialCylinderVerts Real.sin Real.cos 1 2 0 1 1).length = 2 * (1 + 1) ∧
      (partialCylinderTris 1).length = 2 * 1 ∧
      ∀ j, j < (partialCylinderVerts Real.sin Real.cos 1 2 0 1 1).length →
        (partialCylinderVerts Real.sin Real.cos 1 2 0 1 1)[j]? =
          some ⟨Real.sin (sampleAngle 0 1 1 (j / 2)) * 1,
            Real.cos (sampleAngle 0 1 1 (j / 2)) * 1,
            if j % 2 = 0 then -(2 / 2) else 2 / 2⟩ ∧
        (partialCylinderNorms Real.sin Real.cos 0 1 1)[j]? =
          some ⟨Real.sin (sampleAngle 0 1 1 (j / 2)),
            Real.cos (sampleAngle 0 1 1 (j / 2)), 0⟩ ∧
        Real.sin (sampleAngle 0 1 1 (j / 2)) ^ 2 +
          Real.cos (sampleAngle 0 1 1 (j / 2)) ^ 2 + (0 : ℝ) ^ 2 = 1) :=
  ⟨⟨by norm_num, le_refl 1⟩, partialCylinder_spec 1 2 0 1 1 (by norm_num) (le_refl 1)⟩

/-- One orbit-controller event preserves the radius and polar-angle bounds:
the handler that touches a coordinate clamps it into range before writing,
and leaves the other coordinate unchanged. -/
theorem orbitStep_bounds (pi rMin rMax : ℝ) (hr : rMin ≤ rMax)
    (hpi : 3 / 20 ≤ pi - 3 / 20) (e : OrbitEvent ℝ) (s : OrbitSph ℝ)
    (h : rMin ≤ s.radius ∧ s.radius ≤ rMax ∧ 3 / 20 ≤ s.phi ∧ s.phi ≤ pi - 3 / 20) :
    rMin ≤ (orbitStep pi rMin rMax e s).radius ∧
    (orbitStep pi rMin rMax e s).radius ≤ rMax ∧
    3 / 20 ≤ (orbitStep pi rMin rMax e s).phi ∧
    (orbitStep pi rMin rMax e s).phi ≤ pi - 3 / 20 := by
  obtain ⟨h1, h2, h3, h4⟩ := h
  cases e with
  | move dx dy =>
    simp only [orbitStep, moveStep]
    exact ⟨h1, h2, le_max_left _ _, max_le hpi (min_le_left _ _)⟩
  | wheel dY =>
    simp only [orbitStep, wheelStep]
    exact ⟨le_max_left _ _, max_le hr (min_le_left _ _), h3, h4⟩

/-- Any finite event sequence preserves the radius and polar-angle bounds. -/
theorem orbitRun_bounds (pi rMin rMax : ℝ) (hr : rMin ≤ rMax)
    (hpi : 3 / 20 ≤ pi - 3 / 20) :
    ∀ (evs : List (OrbitEvent ℝ)) (s : OrbitSph ℝ),
      (rMin ≤ s.radius ∧ s.radius ≤ rMax ∧ 3 / 20 ≤ s.phi ∧ s.phi ≤ pi - 3 / 20) →
      rMin ≤ (orbitRun pi rMin rMax evs s).radius ∧
      (orbitRun pi rMin rMax evs s).radius ≤ rMax ∧
      3 / 20 ≤ (orbitRun pi rMin rMax evs s).phi ∧
      (orbitRun pi rMin rMax evs s).phi ≤ pi - 3 / 20 := by
  intro evs
  induction evs with
  | nil =>
    intro s h
    simpa [orbitRun] using h
  | cons e evs ih =>
    intro s h
    have hstep := orbitStep_bounds pi rMin rMax hr hpi e s h
    have hrun : orbitRun pi rMin rMax (e :: evs) s =
        orbitRun pi rMin rMax evs (orbitStep pi rMin rMax e s) := by
      simp [orbitRun]
    rw [hrun]
    exact ih _ hstep

/-- The initial polar angle `acos(x)` lies inside the drag clamp range
`[0.15, π − 0.15]` whenever `0 ≤ x ≤ 1/2`. -/
theorem arccos_init_bounds (x : ℝ) (h0 : 0 ≤ x) (hh : x ≤ 1 / 2) :
    3 / 20 ≤ Real.arccos x ∧ Real.arccos x ≤ Real.pi - 3 / 20 := by
  have hpi : 3 < Real.pi := Real.pi_gt_three
  constructor
  · have h1 : Real.arcsin x ≤ Real.arcsin (1 / 2) := Real.monotone_arcsin hh
    have h2 : Real.arcsin (1 / 2 : ℝ) = Real.pi / 6 := by
      rw [← Real.sin_pi_div_six]
      exact Real.arcsin_sin (by linarith) (by linarith)
    rw [Real.arccos_eq_pi_div_two_sub_arcsin]
    rw [h2] at h1
    linarith
  · have h3 := Real.arccos_le_pi_div_two.mpr h0
    linarith

/-- C7: starting from the initial camera spherical state
(`Spherical.setFromVector3(camera.position)`: radius is the norm of the
initial camera position and the polar angle is `acos(y / radius)`; the
azimuth is unconstrained and quantified over arbitrary values), after any
finite sequence of drag-move and wheel events the orbit radius stays within
the configured clamp bounds (`[0.2, 1.0]` in the Jsx variant, `[0.22, 0.9]`
in the Readme variant) and the polar angle stays within `[0.15, π − 0.15]`. -/
theorem camera_clamp_invariant :
    ∀ (evsA evsB : List (OrbitEvent ℝ)) (thA thB : ℝ),
      (orbitRun Real.pi 0.2 1 evsA
          ⟨Real.sqrt (0.38 ^ 2 + 0.16 ^ 2 + 0.34 ^ 2), thA,
            Real.arccos (0.16 / Real.sqrt (0.38 ^ 2 + 0.16 ^ 2 + 0.34 ^ 2))⟩).radius ∈
        Set.Icc (0.2 : ℝ) 1 ∧
      (orbitRun Real.pi 0.2 1 evsA
          ⟨Real.sqrt (0.38 ^ 2 + 0.16 ^ 2 + 0.34 ^ 2), thA,
            Real.arccos (0.16 / Real.sqrt (0.38 ^ 2 + 0.16 ^ 2 + 0.34 ^ 2))⟩).phi ∈
        Set.Icc (0.15 : ℝ) (Real.pi - 0.15) ∧
      (orbitRun Real.pi 0.22 0.9 evsB
          ⟨Real.sqrt (0.34 ^ 2 + 0.18 ^ 2 + 0.36 ^ 2), thB,
            Real.arccos (0.18 / Real.sqrt (0.34 ^ 2 + 0.18 ^ 2 + 0.36 ^ 2))⟩).radius ∈
        Set.Icc (0.22 : ℝ) 0.9 ∧
      (orbitRun Real.pi 0.22 0.9 evsB
          ⟨Real.sqrt (0.34 ^ 2 + 0.18 ^ 2 + 0.36 ^ 2), thB,
            Real.arccos (0.18 / Real.sqrt (0.34 ^ 2 + 0.18 ^ 2 + 0.36 ^ 2))⟩).phi ∈
        Set.Icc (0.15 : ℝ) (Real.pi - 0.15) := by
  intro evsA evsB thA thB
  have hpi3 : 3 < Real.pi := Real.pi_gt_three
  have hpiB : (3 : ℝ) / 20 ≤ Real.pi - 3 / 20 := by linarith
  set rA := Real.sqrt (0.38 ^ 2 + 0.16 ^ 2 + 0.34 ^ 2) with hrA
  set rB := Real.sqrt (0.34 ^ 2 + 0.18 ^ 2 + 0.36 ^ 2) with hrB
  have hrAlo : (0.32 : ℝ) ≤ rA := by
    rw [hrA]
    apply Real.le_sqrt_of_sq_le
    norm_num
  have hrAhi : rA ≤ 1 := by
    rw [hrA]
    rw [Real.sqrt_le_iff]
    norm_num
  have hrApos : (0 : ℝ) < rA := by linarith
  have hxA0 : (0 : ℝ) ≤ 0.16 / rA := div_nonneg (by norm_num) hrApos.le
  have hxA1 : 0.16 / rA ≤ 1 / 2 := by
    rw [div_le_iff₀ hrApos]
    nlinarith
  have hphiA := arccos_init_bounds (0.16 / rA) hxA0 hxA1
  have hrunA := orbitRun_bounds Real.pi 0.2 1 (by norm_num) hpiB evsA
    ⟨rA, thA, Real.arccos (0.16 / rA)⟩
    ⟨by simpa using (by linarith : (0.2 : ℝ) ≤ rA), by simpa using hrAhi,
      by simpa using hphiA.1, by simpa using hphiA.2⟩
  have hrBlo : (0.36 : ℝ) ≤ rB := by
    rw [hrB]
    apply Real.le_sqrt_of_sq_le
    norm_num
  have hrBhi : rB ≤ 0.9 := by
    rw [hrB]
    rw [Real.sqrt_le_iff]
    norm_num
  have hrBpos : (0 : ℝ) < rB := by linarith
  have hxB0 : (0 : ℝ) ≤ 0.18 / rB := div_nonneg (by norm_num) hrBpos.le
  have hxB1 : 0.18 / rB ≤ 1 / 2 := by
    rw [div_le_iff₀ hrBpos]
    nlinarith
  have hphiB := arccos_init_bounds (0.18 / rB) hxB0 hxB1
  have hrunB := orbitRun_bounds Real.pi 0.22 0.9 (by norm_num) hpiB evsB
    ⟨rB, thB, Real.arccos (0.18 / rB)⟩
    ⟨by simpa using (by linarith : (0.22 : ℝ) ≤ rB), by simpa using hrBhi,
      by simpa using hphiB.1, by simpa using hphiB.2⟩
  refine ⟨Set.mem_Icc.mpr ⟨hrunA.1, hrunA.2.1⟩,
    Set.mem_Icc.mpr ⟨by linarith [hrunA.2.2.1], by linarith [hrunA.2.2.2]⟩,
    Set.mem_Icc.mpr ⟨hrunB.1, hrunB.2.1⟩,
    Set.mem_Icc.mpr ⟨by linarith [hrunB.2.2.1], by linarith [hrunB.2.2.2]⟩⟩
